import Mathlib

/-!
Verification development for the "proof" application core: the canonical
serializer and hashing engine (src/unnamed/part_001), the rate limiter
(src/unnamed/part_003) and the token lifecycle of the auth layer
(src/unnamed/part_000).  JavaScript values are embedded shallowly: strings
as `String`, numbers that the core ever hashes or compares as `Int`
(all of them are integral millisecond timestamps, sort indices or counters),
nullable fields as `Option`, and JavaScript truthiness of those fields is
made explicit.  The asynchronous storage layers (SecureStore, SQLite) are
modelled as association lists threaded through the functions, with explicit
fault flags reproducing the try/catch fallbacks of the source.
-/

set_option maxRecDepth 40000
set_option maxHeartbeats 4000000

/-- Structural concatMap used by the character level helpers. -/
def concatMap (f : α → List β) : List α → List β
  | [] => []
  | a :: as => f a ++ concatMap f as

/-- Lexicographic comparison of character lists by code point, the order
JavaScript string comparison (and `Array.prototype.sort` default string
sort, restricted to code points) induces; `localeCompare` on the ASCII
identifiers used by the source agrees with it. -/
def charListLe : List Char → List Char → Bool
  | [], _ => true
  | _ :: _, [] => false
  | a :: as, b :: bs =>
    if a.toNat < b.toNat then true
    else if b.toNat < a.toNat then false
    else charListLe as bs

/-- String comparison on the underlying character lists. -/
def strLe (a b : String) : Bool := charListLe a.data b.data

/-- The character based lowercase map modelling `String.prototype.toLowerCase`
(ASCII range, which covers every identifier the source normalizes). -/
def lowerStr (s : String) : String := ⟨s.data.map Char.toLower⟩

/-- Whitespace class removed by `String.prototype.trim`. -/
def isJsWhitespace (c : Char) : Bool :=
  c.toNat = 32 || (9 ≤ c.toNat && c.toNat ≤ 13) || c.toNat = 160 || c.toNat = 65279

/-- Model of `String.prototype.trim`: strip leading and trailing whitespace. -/
def jsTrim (s : String) : String :=
  ⟨((s.data.dropWhile isJsWhitespace).reverse.dropWhile isJsWhitespace).reverse⟩

/-- Decimal digits of a positive natural, fuel driven so that the kernel can
evaluate it. -/
def natDecAux : Nat → Nat → List Char
  | 0, _ => []
  | _ + 1, 0 => []
  | fuel + 1, n => natDecAux fuel (n / 10) ++ [Char.ofNat (48 + n % 10)]

/-- Decimal rendering of a natural number. -/
def natDec (n : Nat) : String := if n = 0 then "0" else ⟨natDecAux n n⟩

/-- Decimal rendering of an integer, the text form `JSON.stringify` gives an
integral JavaScript number. -/
def intDec (i : Int) : String := if i < 0 then "-" ++ natDec i.natAbs else natDec i.toNat

/-- Lowercase hexadecimal digit. -/
def hexDigitChar (n : Nat) : Char := Char.ofNat (if n < 10 then 48 + n else 87 + n)

/-- Per character escaping of `JSON.stringify` applied to a string. -/
def escapeChar (c : Char) : List Char :=
  if c = '"' then ['\\', '"']
  else if c = '\\' then ['\\', '\\']
  else if c.toNat = 8 then ['\\', 'b']
  else if c.toNat = 9 then ['\\', 't']
  else if c.toNat = 10 then ['\\', 'n']
  else if c.toNat = 12 then ['\\', 'f']
  else if c.toNat = 13 then ['\\', 'r']
  else if c.toNat < 32 then ['\\', 'u', '0', '0', hexDigitChar (c.toNat / 16), hexDigitChar (c.toNat % 16)]
  else [c]

/-- `JSON.stringify` of a string: quoted and escaped. -/
def jsonQuote (s : String) : String := ⟨'"' :: concatMap escapeChar s.data ++ ['"']⟩

/-- `Array.prototype.join` with a comma separator. -/
def commaJoin : List String → String
  | [] => ""
  | [s] => s
  | s :: rest => s ++ "," ++ commaJoin rest

mutual
/-- The value trees `stableStringify` ever receives: null, undefined,
primitives, arrays and plain objects.  Arrays and objects carry their own
spine so that every recursion below is structural. -/
inductive JValue where
  | jnull
  | jundef
  | jbool (b : Bool)
  | jnum (n : Int)
  | jstr (s : String)
  | jarr (xs : JArray)
  | jobj (fs : JObject)
inductive JArray where
  | nil
  | cons (hd : JValue) (tl : JArray)
inductive JObject where
  | nil
  | cons (key : String) (val : JValue) (tl : JObject)
end

/-- Array node from a list of values. -/
def JArray.ofList : List JValue → JArray
  | [] => .nil
  | v :: vs => .cons v (JArray.ofList vs)

/-- Object node from an insertion ordered list of key/value pairs.  A
JavaScript object cannot hold two properties with the same key, so only
lists with pairwise distinct keys denote objects. -/
def JObject.ofList : List (String × JValue) → JObject
  | [] => .nil
  | (k, v) :: fs => .cons k v (JObject.ofList fs)

/-- Array value from a list. -/
def jarr (xs : List JValue) : JValue := .jarr (JArray.ofList xs)

/-- Object value from a pair list. -/
def jobj (fs : List (String × JValue)) : JValue := .jobj (JObject.ofList fs)

/-- Key order used on object properties: `Object.keys(obj).sort()` sorts the
key strings; here the pairs (key, rendered value) are sorted by key with a
stable sort, which agrees with the source on every genuine object (keys
pairwise distinct). -/
def pairKeyLe (a b : String × String) : Prop := strLe a.1 b.1 = true

instance : DecidableRel pairKeyLe := fun a b =>
  inferInstanceAs (Decidable (strLe a.1 b.1 = true))

mutual
/-- Translation of `stableStringify` (src/unnamed/part_001 lines 21 to 41).
null and undefined go through `String(obj)`; primitives through
`JSON.stringify`; arrays keep element order; objects render their
properties sorted by key.  The source sorts `Object.keys(obj)` first and
then renders each property; here each property is rendered first and the
(key, rendered value) pairs are then sorted by key, which commutes because
rendering a property neither looks at the other properties nor changes the
key. -/
def stableStringify : JValue → String
  | .jnull => "null"
  | .jundef => "undefined"
  | .jbool b => if b then "true" else "false"
  | .jnum n => intDec n
  | .jstr s => jsonQuote s
  | .jarr xs => "[" ++ commaJoin (stringifyElems xs) ++ "]"
  | .jobj fs =>
      "\x7b" ++
        commaJoin ((List.insertionSort pairKeyLe (stringifyFields fs)).map
          (fun kv => jsonQuote kv.1 ++ ":" ++ kv.2)) ++
      "\x7d"
/-- Rendered elements of an array, in order. -/
def stringifyElems : JArray → List String
  | .nil => []
  | .cons h t => stableStringify h :: stringifyElems t
/-- Properties of an object as (key, rendered value) pairs, in insertion
order. -/
def stringifyFields : JObject → List (String × String)
  | .nil => []
  | .cons k v t => (k, stableStringify v) :: stringifyFields t
end

/-! ## SHA-256

Modelled from the spec: the source delegates digesting to the external
collaborator `expo-crypto` (`Crypto.digestStringAsync(SHA256, input)`),
which hashes the UTF-8 bytes of the input string and returns the digest in
lowercase hexadecimal.  The FIPS 180-4 SHA-256 function is implemented here
over `Nat` with explicit reduction modulo 2^32. -/

def M32 : Nat := 4294967296

def rotr32 (n x : Nat) : Nat := ((x >>> n) ||| (x <<< (32 - n))) % M32

def bigSigma0 (x : Nat) : Nat := (rotr32 2 x) ^^^ (rotr32 13 x) ^^^ (rotr32 22 x)

def bigSigma1 (x : Nat) : Nat := (rotr32 6 x) ^^^ (rotr32 11 x) ^^^ (rotr32 25 x)

def smallSigma0 (x : Nat) : Nat := (rotr32 7 x) ^^^ (rotr32 18 x) ^^^ (x >>> 3)

def smallSigma1 (x : Nat) : Nat := (rotr32 17 x) ^^^ (rotr32 19 x) ^^^ (x >>> 10)

def chVal (x y z : Nat) : Nat := (x &&& y) ^^^ ((x ^^^ 4294967295) &&& z)

def majVal (x y z : Nat) : Nat := (x &&& y) ^^^ (x &&& z) ^^^ (y &&& z)

/-- SHA-256 round constants. -/
def K256 : List Nat := [
  1116352408, 1899447441, 3049323471, 3921009573, 961987163,
  1508970993, 2453635748, 2870763221, 3624381080, 310598401,
  607225278, 1426881987, 1925078388, 2162078206, 2614888103,
  3248222580, 3835390401, 4022224774, 264347078, 604807628,
  770255983, 1249150122, 1555081692, 1996064986, 2554220882,
  2821834349, 2952996808, 3210313671, 3336571891, 3584528711,
  113926993, 338241895, 666307205, 773529912, 1294757372,
  1396182291, 1695183700, 1986661051, 2177026350, 2456956037,
  2730485921, 2820302411, 3259730800, 3345764771, 3516065817,
  3600352804, 4094571909, 275423344, 430227734, 506948616,
  659060556, 883997877, 958139571, 1322822218, 1537002063,
  1747873779, 1955562222, 2024104815, 2227730452, 2361852424,
  2428436474, 2756734187, 3204031479, 3329325298]

/-- Working state a..h of the compression function. -/
structure Hash8 where
  a : Nat
  b : Nat
  c : Nat
  d : Nat
  e : Nat
  f : Nat
  g : Nat
  h : Nat

/-- SHA-256 initial hash value. -/
def H256init : Hash8 :=
  ⟨1779033703, 3144134277, 1013904242, 2773480762,
   1359893119, 2600822924, 528734635, 1541459225⟩

/-- Message schedule extension, the working list kept most recent first. -/
def extendW : Nat → List Nat → List Nat
  | 0, rw => rw
  | fuel + 1, rw =>
    let t := (smallSigma1 (rw.getD 1 0) + rw.getD 6 0 + smallSigma0 (rw.getD 14 0) + rw.getD 15 0) % M32
    extendW fuel (t :: rw)

/-- The 64 schedule words of a block. -/
def msgSchedule (block16 : List Nat) : List Nat := (extendW 48 block16.reverse).reverse

/-- One compression round. -/
def compressStep (st : Hash8) (kw : Nat × Nat) : Hash8 :=
  let t1 := (st.h + bigSigma1 st.e + chVal st.e st.f st.g + kw.1 + kw.2) % M32
  let t2 := (bigSigma0 st.a + majVal st.a st.b st.c) % M32
  ⟨(t1 + t2) % M32, st.a, st.b, st.c, (st.d + t1) % M32, st.e, st.f, st.g⟩

/-- Compression of one 16 word block. -/
def compressBlock (h0 : Hash8) (block16 : List Nat) : Hash8 :=
  let ws := msgSchedule block16
  let s := (K256.zip ws).foldl compressStep h0
  ⟨(h0.a + s.a) % M32, (h0.b + s.b) % M32, (h0.c + s.c) % M32, (h0.d + s.d) % M32,
   (h0.e + s.e) % M32, (h0.f + s.f) % M32, (h0.g + s.g) % M32, (h0.h + s.h) % M32⟩

/-- UTF-8 bytes of one character. -/
def utf8Encode (c : Char) : List Nat :=
  let n := c.toNat
  if n < 128 then [n]
  else if n < 2048 then [192 + n / 64, 128 + n % 64]
  else if n < 65536 then [224 + n / 4096, 128 + (n / 64) % 64, 128 + n % 64]
  else [240 + n / 262144, 128 + (n / 4096) % 64, 128 + (n / 64) % 64, 128 + n % 64]

/-- UTF-8 bytes of a string. -/
def strUtf8 (s : String) : List Nat := concatMap utf8Encode s.data

/-- Big endian 64 bit length field of the padding. -/
def lenBytes (n : Nat) : List Nat :=
  [(n >>> 56) % 256, (n >>> 48) % 256, (n >>> 40) % 256, (n >>> 32) % 256,
   (n >>> 24) % 256, (n >>> 16) % 256, (n >>> 8) % 256, n % 256]

/-- SHA-256 padding: a 0x80 byte, zeros up to 56 mod 64, then the bit
length. -/
def padMessage (bytes : List Nat) : List Nat :=
  let L := bytes.length
  let zeros := (119 - L % 64) % 64
  bytes ++ [128] ++ List.replicate zeros 0 ++ lenBytes (8 * L)

/-- Big endian 32 bit words of a byte list whose length is a multiple of 4. -/
def bytesToWords : List Nat → List Nat
  | b0 :: b1 :: b2 :: b3 :: rest =>
    ((b0 <<< 24) ||| (b1 <<< 16) ||| (b2 <<< 8) ||| b3) :: bytesToWords rest
  | _ => []

/-- Split a word list into 16 word blocks, fuel driven. -/
def splitWords : Nat → List Nat → List (List Nat)
  | 0, _ => []
  | _, [] => []
  | fuel + 1, ws => ws.take 16 :: splitWords fuel (ws.drop 16)

/-- Hexadecimal rendering of a 32 bit word. -/
def word32Hex (w : Nat) : List Char :=
  [hexDigitChar ((w >>> 28) % 16), hexDigitChar ((w >>> 24) % 16), hexDigitChar ((w >>> 20) % 16),
   hexDigitChar ((w >>> 16) % 16), hexDigitChar ((w >>> 12) % 16), hexDigitChar ((w >>> 8) % 16),
   hexDigitChar ((w >>> 4) % 16), hexDigitChar (w % 16)]

/-- Translation of `sha256Hex` (src/unnamed/part_001 lines 44 to 52): the
lowercase hexadecimal SHA-256 digest of the UTF-8 bytes of the input
string. -/
def sha256Hex (input : String) : String :=
  let bytes := padMessage (strUtf8 input)
  let blocks := splitWords bytes.length (bytesToWords bytes)
  let fin := blocks.foldl compressBlock H256init
  ⟨concatMap word32Hex [fin.a, fin.b, fin.c, fin.d, fin.e, fin.f, fin.g, fin.h]⟩

/-! ## Record integrity (src/unnamed/part_001) -/

/-- The `PhotoHash` interface: the integrity relevant descriptor of one
photo. -/
structure PhotoHash where
  id : String
  mimeType : String
  sha256 : String
  sortIndex : Int
deriving DecidableEq

/-- The `CanonicalRecord` interface. -/
structure CanonicalRecord where
  dateKey : String
  createdAt : Int
  note : String
  photos : List PhotoHash
deriving DecidableEq

/-- The comparator of `buildCanonicalRecord`: ascending `sortIndex`, ties by
`id` (`localeCompare`, which on the ASCII ids of the source is code point
order). -/
def photoLeB (a b : PhotoHash) : Bool :=
  if a.sortIndex = b.sortIndex then strLe a.id b.id else decide (a.sortIndex < b.sortIndex)

/-- The comparator as a relation for the stable sort. -/
def photoLe (a b : PhotoHash) : Prop := photoLeB a b = true

instance : DecidableRel photoLe := fun a b =>
  inferInstanceAs (Decidable (photoLeB a b = true))

/-- Translation of `buildCanonicalRecord` (src/unnamed/part_001 lines 86 to
106): copy and stably sort the photos by (sortIndex, id) — JavaScript
`Array.prototype.sort` is stable, as is `List.insertionSort` — and default
a falsy note to the empty string. -/
def buildCanonicalRecord (dateKey : String) (createdAt : Int) (note : String)
    (photos : List PhotoHash) : CanonicalRecord :=
  { dateKey := dateKey
    createdAt := createdAt
    note := if note = "" then "" else note
    photos := List.insertionSort photoLe photos }

/-- The object `stableStringify` receives for one photo descriptor. -/
def photoToJValue (p : PhotoHash) : JValue :=
  jobj [("id", .jstr p.id), ("mimeType", .jstr p.mimeType),
        ("sha256", .jstr p.sha256), ("sortIndex", .jnum p.sortIndex)]

/-- The object `stableStringify` receives for a canonical record. -/
def canonicalToJValue (cr : CanonicalRecord) : JValue :=
  jobj [("dateKey", .jstr cr.dateKey), ("createdAt", .jnum cr.createdAt),
        ("note", .jstr cr.note), ("photos", jarr (cr.photos.map photoToJValue))]

/-- Translation of `computeRecordHash` (src/unnamed/part_001 lines 111 to
120). -/
def computeRecordHash (dateKey : String) (createdAt : Int) (note : String)
    (photos : List PhotoHash) : String :=
  sha256Hex (stableStringify (canonicalToJValue (buildCanonicalRecord dateKey createdAt note photos)))

/-- Translation of `verifyRecordIntegrity` (src/unnamed/part_001 lines 125
to 139): recompute and compare case insensitively. -/
def verifyRecordIntegrity (storedHash : String) (dateKey : String) (createdAt : Int)
    (note : String) (photos : List PhotoHash) : Bool :=
  lowerStr storedHash == lowerStr (computeRecordHash dateKey createdAt note photos)

/-! ## Rate limiter (src/unnamed/part_003) -/

/-- The three operation classes of `RATE_LIMIT_CONFIG`. -/
inductive OpClass where
  | AUTH
  | PIN_VERIFICATION
  | EMAIL
deriving DecidableEq

/-- The literal key of an operation class in the config object, used in the
storage key template. -/
def opClassName : OpClass → String
  | .AUTH => "AUTH"
  | .PIN_VERIFICATION => "PIN_VERIFICATION"
  | .EMAIL => "EMAIL"

/-- Per class rate limit configuration. -/
structure RateConfig where
  maxAttempts : Nat
  windowMs : Int
  lockoutDurationMs : Int

/-- Translation of `RATE_LIMIT_CONFIG` (src/unnamed/part_003 lines 15 to
34). -/
def RATE_LIMIT_CONFIG : OpClass → RateConfig
  | .AUTH => ⟨5, 15 * 60 * 1000, 30 * 60 * 1000⟩
  | .PIN_VERIFICATION => ⟨3, 10 * 60 * 1000, 15 * 60 * 1000⟩
  | .EMAIL => ⟨3, 60 * 60 * 1000, 60 * 60 * 1000⟩

/-- Translation of `RATE_LIMIT_WHITELIST` (src/unnamed/part_003 lines 41 to
43). -/
def RATE_LIMIT_WHITELIST : List String := ["michaelhalperin2@gmail.com"]

/-- Global replacement of one character by a string, the effect of
`String.prototype.replace` with a one character global regex. -/
def replaceChar (c : Char) (r : List Char) : List Char → List Char
  | [] => []
  | x :: xs => (if x = c then r else [x]) ++ replaceChar c r xs

/-- Characters the final catch all of `encodeKey` keeps. -/
def isSafeKeyChar (c : Char) : Bool :=
  (97 ≤ c.toNat && c.toNat ≤ 122) || (65 ≤ c.toNat && c.toNat ≤ 90) ||
  (48 ≤ c.toNat && c.toNat ≤ 57) || c = '_' || c = '-'

/-- Translation of `encodeKey` (src/unnamed/part_003 lines 49 to 59): the
five named replacements in order, then every remaining character outside
`[a-zA-Z0-9_-]` becomes an underscore. -/
def encodeKey (s : String) : String :=
  let s1 := replaceChar '@' "_at_".data s.data
  let s2 := replaceChar '.' "_dot_".data s1
  let s3 := replaceChar '+' "_plus_".data s2
  let s4 := replaceChar '/' "_slash_".data s3
  let s5 := replaceChar '=' "_equals_".data s4
  ⟨s5.map (fun c => if isSafeKeyChar c then c else '_')⟩

/-- One `RateLimitEntry` as stored (the JSON round trip through SecureStore
is modelled as the identity on the record). -/
structure RateLimitEntry where
  attempts : Nat
  firstAttempt : Int
  lockedUntil : Option Int
deriving DecidableEq

/-- The SecureStore keyspace the limiter uses. -/
abbrev RLStore := List (String × RateLimitEntry)

/-- Read a key. -/
def storeGet (s : RLStore) (k : String) : Option RateLimitEntry :=
  (s.find? (fun kv => kv.1 == k)).map Prod.snd

/-- Overwrite a key (`SecureStore.setItemAsync`). -/
def storeSet (s : RLStore) (k : String) (v : RateLimitEntry) : RLStore :=
  (k, v) :: s.filter (fun kv => kv.1 != k)

/-- Delete a key (`SecureStore.deleteItemAsync`). -/
def storeDel (s : RLStore) (k : String) : RLStore :=
  s.filter (fun kv => kv.1 != k)

/-- Fault injection for the storage collaborator: a failing read models
`SecureStore.getItemAsync` (or `JSON.parse`) throwing, a failing write
models `setItemAsync`/`deleteItemAsync` throwing.  The source catches both
and continues, which the definitions below reproduce. -/
structure StoreFaults where
  readFails : Bool
  writeFails : Bool
deriving DecidableEq

/-- The fault free storage behaviour. -/
def noFaults : StoreFaults := ⟨false, false⟩

/-- Translation of `getRateLimitEntry` (src/unnamed/part_003 lines 61 to
71): prefix and encode the key; a thrown read error is caught, logged and
turned into `null`. -/
def getRateLimitEntry (f : StoreFaults) (s : RLStore) (key : String) : Option RateLimitEntry :=
  if f.readFails then none else storeGet s ("rate_limit_" ++ encodeKey key)

/-- Translation of `setRateLimitEntry` (src/unnamed/part_003 lines 73 to
83): a thrown write error is caught and logged, leaving the store
unchanged. -/
def setRateLimitEntry (f : StoreFaults) (s : RLStore) (key : String) (entry : RateLimitEntry) : RLStore :=
  if f.writeFails then s else storeSet s ("rate_limit_" ++ encodeKey key) entry

/-- Translation of `clearRateLimitEntry` (src/unnamed/part_003 lines 85 to
92). -/
def clearRateLimitEntry (f : StoreFaults) (s : RLStore) (key : String) : RLStore :=
  if f.writeFails then s else storeDel s ("rate_limit_" ++ encodeKey key)

/-- The result shape of `checkRateLimit`. -/
structure RateLimitResult where
  allowed : Bool
  remainingAttempts : Nat
  lockedUntil : Option Int
deriving DecidableEq

/-- `identifier.toLowerCase().trim()`, the normalization applied before the
whitelist test. -/
def normalizeId (s : String) : String := jsTrim (lowerStr s)

/-- JavaScript truthiness of a nullable number field: null and 0 are
falsy. -/
def numTruthy : Option Int → Bool
  | none => false
  | some v => v != 0

/-- The storage key `checkRateLimit` uses for an identifier, prefix and
encoding included. -/
def fullKey (ty : OpClass) (identifier : String) : String :=
  "rate_limit_" ++ encodeKey (opClassName ty ++ "_" ++ identifier)

/-- Translation of `checkRateLimit` (src/unnamed/part_003 lines 94 to 194).
The whitelisted early return, the fresh entry, the two lockedUntil branches
(guarded by JavaScript truthiness of the stored instant), the window reset,
and the increment with its `Math.max(0, maxAttempts - newAttempts)` (here
truncated `Nat` subtraction) follow the source line by line; the returned
pair carries the result and the store after the persisted write. -/
def checkRateLimit (f : StoreFaults) (identifier : String) (ty : OpClass)
    (s : RLStore) (now : Int) : RateLimitResult × RLStore :=
  if RATE_LIMIT_WHITELIST.contains (normalizeId identifier) then
    (⟨true, 999, none⟩, s)
  else
    let config := RATE_LIMIT_CONFIG ty
    let key := opClassName ty ++ "_" ++ identifier
    match getRateLimitEntry f s key with
    | none =>
        (⟨true, config.maxAttempts - 1, none⟩, setRateLimitEntry f s key ⟨1, now, none⟩)
    | some entry =>
        if numTruthy entry.lockedUntil = true ∧ now < entry.lockedUntil.getD 0 then
          (⟨false, 0, entry.lockedUntil⟩, s)
        else if numTruthy entry.lockedUntil = true ∧ entry.lockedUntil.getD 0 ≤ now then
          (⟨true, config.maxAttempts - 1, none⟩, setRateLimitEntry f s key ⟨1, now, none⟩)
        else if now - entry.firstAttempt > config.windowMs then
          (⟨true, config.maxAttempts - 1, none⟩, setRateLimitEntry f s key ⟨1, now, none⟩)
        else
          let newAttempts := entry.attempts + 1
          if config.maxAttempts ≤ newAttempts then
            let lockedUntil := now + config.lockoutDurationMs
            (⟨false, 0, some lockedUntil⟩,
              setRateLimitEntry f s key ⟨newAttempts, entry.firstAttempt, some lockedUntil⟩)
          else
            (⟨true, config.maxAttempts - newAttempts, none⟩,
              setRateLimitEntry f s key ⟨newAttempts, entry.firstAttempt, entry.lockedUntil⟩)

/-- Translation of `resetRateLimit` (src/unnamed/part_003 lines 204 to
210): delete the entry of `${type}_${identifier}`. -/
def resetRateLimit (f : StoreFaults) (identifier : String) (ty : OpClass) (s : RLStore) : RLStore :=
  clearRateLimitEntry f s (opClassName ty ++ "_" ++ identifier)

/-- Fault free `checkRateLimit` calls chained through the store, one per
listed instant; used to state call sequence properties. -/
def checkChain (identifier : String) (ty : OpClass) : RLStore → List Int → List RateLimitResult × RLStore
  | s, [] => ([], s)
  | s, t :: ts =>
    let step := checkRateLimit noFaults identifier ty s t
    let rest := checkChain identifier ty step.2 ts
    (step.1 :: rest.1, rest.2)

/-! ## Token lifecycle of the auth layer (src/unnamed/part_000) -/

/-- The `User` row of the auth database.  `emailVerified` is stored as
0/1 by SQLite and read back as a boolean flag; it is normalized to `Bool`
here.  Token and expiry columns are nullable. -/
structure AuthUser where
  email : String
  name : String
  passwordHash : String
  createdAt : Int
  emailVerified : Bool
  emailVerificationToken : Option String
  emailVerificationTokenExpiry : Option Int
  passwordResetToken : Option String
  passwordResetTokenExpiry : Option Int
deriving DecidableEq

/-- The users table. -/
abbrev AuthDb := List AuthUser

/-- Translation of `getUserByEmail` (src/unnamed/part_000 lines 116 to
123): select by `email.toLowerCase().trim()`. -/
def getUserByEmail (db : AuthDb) (email : String) : Option AuthUser :=
  db.find? (fun u => u.email == normalizeId email)

/-- JavaScript truthiness of a nullable string field: null and the empty
string are falsy. -/
def strOptTruthy : Option String → Bool
  | none => false
  | some s => !(s == "")

/-- Translation of `hashPassword` (src/unnamed/part_000 lines 125 to 131):
hexadecimal SHA-256 of the password. -/
def hashPassword (password : String) : String := sha256Hex password

/-- The row update of a successful `verifyEmail`: the SQL statement sets
`emailVerified = 1` and clears token and expiry on every row whose email
equals the normalized submitted email. -/
def clearEmailToken (norm : String) (x : AuthUser) : AuthUser :=
  if x.email == norm then
    { x with emailVerified := true, emailVerificationToken := none,
             emailVerificationTokenExpiry := none }
  else x

/-- The row update of a successful `resetPasswordWithToken`: the SQL
statement replaces the password hash and clears the reset token and expiry
on every row whose email equals the normalized submitted email. -/
def applyPasswordReset (norm newHash : String) (x : AuthUser) : AuthUser :=
  if x.email == norm then
    { x with passwordHash := newHash, passwordResetToken := none,
             passwordResetTokenExpiry := none }
  else x

/-- Translation of `verifyEmail` (src/unnamed/part_000 lines 189 to 219).
Guards in source order: missing user, falsy stored token or already
verified; token mismatch (exact, untrimmed); truthy expiry in the past.
On success the row is updated: verified set, token and expiry cleared.
The returned pair is (result, users table after the call). -/
def verifyEmail (db : AuthDb) (email token : String) (now : Int) : Bool × AuthDb :=
  match getUserByEmail db email with
  | none => (false, db)
  | some user =>
    if strOptTruthy user.emailVerificationToken = false ∨ user.emailVerified = true then
      (false, db)
    else if user.emailVerificationToken ≠ some token then
      (false, db)
    else if numTruthy user.emailVerificationTokenExpiry = true ∧
        user.emailVerificationTokenExpiry.getD 0 < now then
      (false, db)
    else
      (true, db.map (clearEmailToken (normalizeId email)))

/-- Translation of `verifyPasswordResetPin` (src/unnamed/part_000 lines 240
to 262): read only; falsy stored token or mismatch against the trimmed
submitted pin fails, then a truthy expiry in the past fails. -/
def verifyPasswordResetPin (db : AuthDb) (email pin : String) (now : Int) : Bool :=
  match getUserByEmail db email with
  | none => false
  | some user =>
    if strOptTruthy user.passwordResetToken = false ∨ user.passwordResetToken ≠ some (jsTrim pin) then
      false
    else if numTruthy user.passwordResetTokenExpiry = true ∧
        user.passwordResetTokenExpiry.getD 0 < now then
      false
    else
      true

/-- Translation of `resetPasswordWithToken` (src/unnamed/part_000 lines 267
to 298): the same guards as `verifyPasswordResetPin`; on success the
password hash is replaced and the reset token and expiry are cleared. -/
def resetPasswordWithToken (db : AuthDb) (email pin newPassword : String) (now : Int) : Bool × AuthDb :=
  match getUserByEmail db email with
  | none => (false, db)
  | some user =>
    if strOptTruthy user.passwordResetToken = false ∨ user.passwordResetToken ≠ some (jsTrim pin) then
      (false, db)
    else if numTruthy user.passwordResetTokenExpiry = true ∧
        user.passwordResetTokenExpiry.getD 0 < now then
      (false, db)
    else
      (true, db.map (applyPasswordReset (normalizeId email) (hashPassword newPassword)))

/-! ## Sanity checks of the embedding -/

/-- FIPS 180-4 test vector: the digest of the empty string. -/
theorem sha256Hex_empty :
    sha256Hex "" = "e3b0c44298fc1c149afbf4c8996fb92427ae41e4649b934ca495991b7852b855" := by
  decide

/-- FIPS 180-4 test vector: the digest of "abc". -/
theorem sha256Hex_abc :
    sha256Hex "abc" = "ba7816bf8f01cfea414140de5dae2223b00361a396177a9cb410ff61f20015ad" := by
  decide

/-- The serializer on a nested value, keys emitted in sorted order. -/
theorem stableStringify_example :
    stableStringify (jobj [("b", .jnum 2), ("a", jarr [.jstr "x", .jnull])]) =
      "\x7b\"a\":[\"x\",null],\"b\":2\x7d" := by
  decide

/-! ## Order toolbox for the stable sorts -/

/-- Head unfolding of the code point order. -/
theorem charListLe_cons_iff (a b : Char) (as bs : List Char) :
    charListLe (a :: as) (b :: bs) = true ↔
      (a.toNat < b.toNat ∨ (a.toNat = b.toNat ∧ charListLe as bs = true)) := by
  simp only [charListLe]
  rcases Nat.lt_trichotomy a.toNat b.toNat with h | h | h
  · rw [if_pos h]
    simp [h]
  · rw [if_neg (by omega), if_neg (by omega)]
    simp [h]
  · rw [if_neg (by omega), if_pos h]
    constructor
    · intro hx
      exact absurd hx (by simp)
    · rintro (hx | ⟨hx, -⟩) <;> omega

/-- Totality of the code point order. -/
theorem charListLe_total : ∀ as bs : List Char, charListLe as bs = true ∨ charListLe bs as = true := by
  intro as
  induction as with
  | nil => intro bs; left; rfl
  | cons a as ih =>
    intro bs
    cases bs with
    | nil => right; rfl
    | cons b bs =>
      rw [charListLe_cons_iff, charListLe_cons_iff]
      rcases Nat.lt_trichotomy a.toNat b.toNat with h | h | h
      · left; left; exact h
      · rcases ih bs with h2 | h2
        · left; right; exact ⟨h, h2⟩
        · right; right; exact ⟨h.symm, h2⟩
      · right; left; exact h

/-- Transitivity of the code point order. -/
theorem charListLe_trans : ∀ as bs cs : List Char,
    charListLe as bs = true → charListLe bs cs = true → charListLe as cs = true := by
  intro as
  induction as with
  | nil => intro bs cs _ _; rfl
  | cons a as ih =>
    intro bs cs h1 h2
    cases bs with
    | nil => exact absurd h1 (by simp [charListLe])
    | cons b bs =>
      cases cs with
      | nil => exact absurd h2 (by simp [charListLe])
      | cons c cs =>
        rw [charListLe_cons_iff] at h1 h2 ⊢
        rcases h1 with h1 | ⟨h1e, h1t⟩ <;> rcases h2 with h2 | ⟨h2e, h2t⟩
        · left; omega
        · left; omega
        · left; omega
        · right; exact ⟨by omega, ih bs cs h1t h2t⟩

/-- Antisymmetry of the code point order. -/
theorem charListLe_antisymm : ∀ as bs : List Char,
    charListLe as bs = true → charListLe bs as = true → as = bs := by
  intro as
  induction as with
  | nil =>
    intro bs _ h2
    cases bs with
    | nil => rfl
    | cons b bs => exact absurd h2 (by simp [charListLe])
  | cons a as ih =>
    intro bs h1 h2
    cases bs with
    | nil => exact absurd h1 (by simp [charListLe])
    | cons b bs =>
      rw [charListLe_cons_iff] at h1 h2
      rcases h1 with h1 | ⟨h1e, h1t⟩ <;> rcases h2 with h2 | ⟨h2e, h2t⟩
      · omega
      · omega
      · omega
      · have hab : a = b := by
          simpa [Char.ext_iff, UInt32.ext_iff] using h1e
        rw [hab, ih bs h1t h2t]

/-- Totality of the string order. -/
theorem strLe_total (a b : String) : strLe a b = true ∨ strLe b a = true :=
  charListLe_total a.data b.data

/-- Transitivity of the string order. -/
theorem strLe_trans {a b c : String} (h1 : strLe a b = true) (h2 : strLe b c = true) :
    strLe a c = true :=
  charListLe_trans a.data b.data c.data h1 h2

/-- Antisymmetry of the string order. -/
theorem strLe_antisymm {a b : String} (h1 : strLe a b = true) (h2 : strLe b a = true) : a = b :=
  String.ext (charListLe_antisymm a.data b.data h1 h2)

/-- Two sorted permutations of each other agree, with antisymmetry demanded
only on the members of the lists. -/
theorem eq_of_perm_of_pairwise {α : Type _} {r : α → α → Prop} :
    ∀ {l₁ l₂ : List α}, l₁.Perm l₂ → l₁.Pairwise r → l₂.Pairwise r →
      (∀ a ∈ l₁, ∀ b ∈ l₁, r a b → r b a → a = b) → l₁ = l₂ := by
  intro l₁
  induction l₁ with
  | nil =>
    intro l₂ hp _ _ _
    exact (hp.symm.eq_nil).symm
  | cons a t₁ ih =>
    intro l₂ hp h₁ h₂ hanti
    cases l₂ with
    | nil => exact absurd hp.eq_nil (by simp)
    | cons b t₂ =>
      have hab : a = b := by
        by_contra hne
        have ha2 : a ∈ t₂ :=
          (List.mem_cons.mp (hp.mem_iff.mp (List.mem_cons_self a t₁))).resolve_left hne
        have hb1 : b ∈ t₁ :=
          (List.mem_cons.mp (hp.mem_iff.mpr (List.mem_cons_self b t₂))).resolve_left
            (fun h => hne h.symm)
        have hrab : r a b := (List.pairwise_cons.mp h₁).1 b hb1
        have hrba : r b a := (List.pairwise_cons.mp h₂).1 a ha2
        exact hne (hanti a (List.mem_cons_self a t₁) b (List.mem_cons_of_mem a hb1) hrab hrba)
      subst hab
      have ht := ih hp.cons_inv (List.pairwise_cons.mp h₁).2 (List.pairwise_cons.mp h₂).2
        (fun x hx y hy hxy hyx =>
          hanti x (List.mem_cons_of_mem a hx) y (List.mem_cons_of_mem a hy) hxy hyx)
      rw [ht]

/-- A stable sort of two permutations of each other agrees whenever the
order is antisymmetric on the listed elements. -/
theorem insertionSort_eq_of_perm {α : Type _} (r : α → α → Prop) [DecidableRel r]
    (htr : ∀ a b c, r a b → r b c → r a c)
    (hto : ∀ a b, r a b ∨ r b a)
    {l₁ l₂ : List α} (hp : l₁.Perm l₂)
    (hanti : ∀ a ∈ l₁, ∀ b ∈ l₁, r a b → r b a → a = b) :
    List.insertionSort r l₁ = List.insertionSort r l₂ := by
  haveI : IsTotal α r := ⟨hto⟩
  haveI : IsTrans α r := ⟨htr⟩
  have hperm : (List.insertionSort r l₁).Perm (List.insertionSort r l₂) :=
    (List.perm_insertionSort r l₁).trans (hp.trans (List.perm_insertionSort r l₂).symm)
  apply eq_of_perm_of_pairwise hperm (List.sorted_insertionSort r l₁)
    (List.sorted_insertionSort r l₂)
  intro x hx y hy hxy hyx
  exact hanti x ((List.perm_insertionSort r l₁).mem_iff.mp hx)
    y ((List.perm_insertionSort r l₁).mem_iff.mp hy) hxy hyx

/-- Totality of the photo comparator. -/
theorem photoLe_total (a b : PhotoHash) : photoLe a b ∨ photoLe b a := by
  unfold photoLe photoLeB
  by_cases h : a.sortIndex = b.sortIndex
  · rw [if_pos h, if_pos h.symm]
    exact strLe_total _ _
  · rw [if_neg h, if_neg (Ne.symm h)]
    simp only [decide_eq_true_eq]
    omega

/-- Transitivity of the photo comparator. -/
theorem photoLe_trans (a b c : PhotoHash) (h1 : photoLe a b) (h2 : photoLe b c) : photoLe a c := by
  unfold photoLe photoLeB at h1 h2 ⊢
  by_cases hab : a.sortIndex = b.sortIndex <;> by_cases hbc : b.sortIndex = c.sortIndex
  · rw [if_pos hab] at h1
    rw [if_pos hbc] at h2
    rw [if_pos (hab.trans hbc)]
    exact strLe_trans h1 h2
  · rw [if_neg hbc] at h2
    simp only [decide_eq_true_eq] at h2
    rw [if_neg (by omega)]
    simp only [decide_eq_true_eq]
    omega
  · rw [if_neg hab] at h1
    simp only [decide_eq_true_eq] at h1
    rw [if_neg (by omega)]
    simp only [decide_eq_true_eq]
    omega
  · rw [if_neg hab] at h1
    rw [if_neg hbc] at h2
    simp only [decide_eq_true_eq] at h1 h2
    rw [if_neg (by omega)]
    simp only [decide_eq_true_eq]
    omega

/-- Mutual photo comparator bounds force equal sort keys. -/
theorem photoLe_antisymm_key (a b : PhotoHash) (h1 : photoLe a b) (h2 : photoLe b a) :
    a.sortIndex = b.sortIndex ∧ a.id = b.id := by
  unfold photoLe photoLeB at h1 h2
  by_cases h : a.sortIndex = b.sortIndex
  · rw [if_pos h] at h1
    rw [if_pos h.symm] at h2
    exact ⟨h, strLe_antisymm h1 h2⟩
  · rw [if_neg h] at h1
    rw [if_neg (Ne.symm h)] at h2
    simp only [decide_eq_true_eq] at h1 h2
    omega

/-- Totality of the object key order on rendered pairs. -/
theorem pairKeyLe_total (a b : String × String) : pairKeyLe a b ∨ pairKeyLe b a :=
  strLe_total a.1 b.1

/-- Transitivity of the object key order on rendered pairs. -/
theorem pairKeyLe_trans (a b c : String × String) (h1 : pairKeyLe a b) (h2 : pairKeyLe b c) :
    pairKeyLe a c :=
  strLe_trans h1 h2

/-- The properties of an object built from a pair list, rendered in
insertion order. -/
theorem stringifyFields_ofList : ∀ f : List (String × JValue),
    stringifyFields (JObject.ofList f) = f.map (fun kv => (kv.1, stableStringify kv.2)) := by
  intro f
  induction f with
  | nil => rfl
  | cons kv rest ih =>
    cases kv
    simp [JObject.ofList, stringifyFields, ih]

/-! ## C1, C2, C3, C9 -/

/-- C1: round-trip of the integrity core.  For every dateKey, createdAt,
note and photo descriptor list, `verifyRecordIntegrity` accepts the hash
`computeRecordHash` produced for the same inputs; the stored hash is
compared case insensitively against the recomputation. -/
theorem c1_round_trip (d : String) (c : Int) (n : String) (p : List PhotoHash) :
    verifyRecordIntegrity (computeRecordHash d c n p) d c n p = true := by
  unfold verifyRecordIntegrity
  exact beq_self_eq_true _

/-- C2 (amended): photo permutation invariance holds for lists whose
(sortIndex, id) sort keys are pairwise distinct, which the data model
guarantees because photo ids are unique.  `buildCanonicalRecord` stably
sorts by (sortIndex, id), and on key distinct lists the stable sort of any
permutation is the same list. -/
theorem c2_photo_permutation (d : String) (c : Int) (n : String) (p q : List PhotoHash)
    (hperm : q.Perm p)
    (hkeys : p.Pairwise (fun a b => (a.sortIndex, a.id) ≠ (b.sortIndex, b.id))) :
    computeRecordHash d c n q = computeRecordHash d c n p := by
  unfold computeRecordHash buildCanonicalRecord
  have hsort : List.insertionSort photoLe q = List.insertionSort photoLe p := by
    apply insertionSort_eq_of_perm photoLe photoLe_trans photoLe_total hperm
    intro x hx y hy hxy hyx
    by_cases hxyeq : x = y
    · exact hxyeq
    · exfalso
      have hkey := photoLe_antisymm_key x y hxy hyx
      have hsym : Symmetric (fun a b : PhotoHash => (a.sortIndex, a.id) ≠ (b.sortIndex, b.id)) :=
        fun _ _ h h2 => h h2.symm
      have hne : (x.sortIndex, x.id) ≠ (y.sortIndex, y.id) :=
        hkeys.forall hsym (hperm.mem_iff.mp hx) (hperm.mem_iff.mp hy) hxyeq
      exact hne (by simp [hkey.1, hkey.2])
  rw [hsort]

/-- C2 counterexample: two descriptors sharing (sortIndex, id) but with
different content hashes are a permutation of each other, yet the stable
sort preserves their relative input order, so the two input orders hash
differently — the claim as stated (every permutation of every list) fails. -/
theorem c2_counterexample :
    (([(PhotoHash.mk "p" "m" "b" 0), (PhotoHash.mk "p" "m" "a" 0)] : List PhotoHash).Perm
        [(PhotoHash.mk "p" "m" "a" 0), (PhotoHash.mk "p" "m" "b" 0)]) ∧
      computeRecordHash "d" 0 "n" [(PhotoHash.mk "p" "m" "b" 0), (PhotoHash.mk "p" "m" "a" 0)] ≠
        computeRecordHash "d" 0 "n" [(PhotoHash.mk "p" "m" "a" 0), (PhotoHash.mk "p" "m" "b" 0)] :=
  ⟨List.Perm.swap (PhotoHash.mk "p" "m" "a" 0) (PhotoHash.mk "p" "m" "b" 0) [], by decide⟩

/-- C2 witness: the amended theorem applied to two descriptors with
distinct sort keys, submitted in reversed order. -/
theorem c2_witness :
    computeRecordHash "2024-01-01" 100 "test"
        [(PhotoHash.mk "b" "image/jpeg" "y" 1), (PhotoHash.mk "a" "image/jpeg" "x" 0)] =
      computeRecordHash "2024-01-01" 100 "test"
        [(PhotoHash.mk "a" "image/jpeg" "x" 0), (PhotoHash.mk "b" "image/jpeg" "y" 1)] :=
  c2_photo_permutation "2024-01-01" 100 "test"
    [(PhotoHash.mk "a" "image/jpeg" "x" 0), (PhotoHash.mk "b" "image/jpeg" "y" 1)]
    [(PhotoHash.mk "b" "image/jpeg" "y" 1), (PhotoHash.mk "a" "image/jpeg" "x" 0)]
    (List.Perm.swap (PhotoHash.mk "a" "image/jpeg" "x" 0) (PhotoHash.mk "b" "image/jpeg" "y" 1) [])
    (by decide)

/-- C3: the canonical serializer is deterministic; two objects holding the
same key/value pairs in different insertion orders serialize identically
(keys pairwise distinct, as in any JavaScript object, sorted by their
literal string form); array element order is preserved, so reordering a
sequence changes the serialization, witnessed on [1,2] versus [2,1]. -/
theorem c3_serializer_determinism :
    (∀ v : JValue, stableStringify v = stableStringify v) ∧
    (∀ f1 f2 : List (String × JValue), f1.Perm f2 →
        (f1.map Prod.fst).Pairwise (fun a b => a ≠ b) →
        stableStringify (jobj f1) = stableStringify (jobj f2)) ∧
    stableStringify (jarr [.jnum 1, .jnum 2]) ≠ stableStringify (jarr [.jnum 2, .jnum 1]) := by
  refine ⟨fun v => rfl, ?_, by decide⟩
  intro f1 f2 hperm hkeys
  unfold jobj
  simp only [stableStringify, stringifyFields_ofList]
  have hkeys1 : f1.Pairwise (fun a b => a.1 ≠ b.1) := List.pairwise_map.mp hkeys
  have hsort :
      List.insertionSort pairKeyLe (f1.map (fun kv => (kv.1, stableStringify kv.2))) =
        List.insertionSort pairKeyLe (f2.map (fun kv => (kv.1, stableStringify kv.2))) := by
    apply insertionSort_eq_of_perm pairKeyLe pairKeyLe_trans pairKeyLe_total
      (hperm.map (fun kv => (kv.1, stableStringify kv.2)))
    intro x hx y hy hxy hyx
    have hkeyeq : x.1 = y.1 := strLe_antisymm hxy hyx
    rcases List.mem_map.mp hx with ⟨px, hpx, hgx⟩
    rcases List.mem_map.mp hy with ⟨py, hpy, hgy⟩
    have hpxy : px = py := by
      by_contra hpe
      have hsym : Symmetric (fun a b : String × JValue => a.1 ≠ b.1) :=
        fun _ _ h h2 => h h2.symm
      have hne : px.1 ≠ py.1 := hkeys1.forall hsym hpx hpy hpe
      apply hne
      have e1 : px.1 = x.1 := by rw [← hgx]
      have e2 : py.1 = y.1 := by rw [← hgy]
      rw [e1, e2, hkeyeq]
    rw [← hgx, ← hgy, hpxy]
  rw [hsort]

/-- C3 witness: the key order independence instantiated on the two
insertion orders of the object with fields a = 1, b = 2. -/
theorem c3_witness :
    stableStringify (jobj [("b", .jnum 2), ("a", .jnum 1)]) =
      stableStringify (jobj [("a", .jnum 1), ("b", .jnum 2)]) :=
  c3_serializer_determinism.2.1 [("b", .jnum 2), ("a", .jnum 1)] [("a", .jnum 1), ("b", .jnum 2)]
    (List.Perm.swap ("a", JValue.jnum 1) ("b", JValue.jnum 2) []) (by decide)

/-- C9 (amended): `stableStringify` maps null to the string "null" and
undefined to the string "undefined" — the source applies `String(obj)` to
both, which renders each value by its own name rather than rendering
undefined as "null". -/
theorem c9_absent_values :
    stableStringify JValue.jnull = "null" ∧ stableStringify JValue.jundef = "undefined" :=
  ⟨rfl, rfl⟩

/-- C9 counterexample: on the input undefined the serializer does not
return "null", contradicting the claim that both absent values serialize to
the four character string "null". -/
theorem c9_counterexample : stableStringify JValue.jundef ≠ "null" := by decide

/-! ## Store lemmas for the rate limiter -/

/-- Reading a just written key. -/
theorem storeGet_set_self (s : RLStore) (k : String) (v : RateLimitEntry) :
    storeGet (storeSet s k v) k = some v := by
  unfold storeGet storeSet
  rw [List.find?_cons_of_pos _ (by simp)]
  rfl

/-- A filter that keeps every possible hit does not change `find?`. -/
theorem find?_filter_of_imp {α : Type _} (p q : α → Bool) (l : List α)
    (h : ∀ x, p x = true → q x = true) :
    List.find? p (List.filter q l) = List.find? p l := by
  induction l with
  | nil => rfl
  | cons a t ih =>
    by_cases hq : q a = true
    · rw [List.filter_cons_of_pos hq]
      by_cases hp : p a = true
      · rw [List.find?_cons_of_pos _ hp, List.find?_cons_of_pos _ hp]
      · rw [List.find?_cons_of_neg _ hp, List.find?_cons_of_neg _ hp, ih]
    · rw [List.filter_cons_of_neg (by simpa using hq)]
      have hp : ¬p a = true := fun hpa => hq (h a hpa)
      rw [List.find?_cons_of_neg _ hp, ih]

/-- Writing one key leaves every other key unchanged. -/
theorem storeGet_set_ne (s : RLStore) (k : String) (v : RateLimitEntry) (k2 : String)
    (h : k2 ≠ k) : storeGet (storeSet s k v) k2 = storeGet s k2 := by
  unfold storeGet storeSet
  rw [List.find?_cons_of_neg _ (by simp only [beq_iff_eq]; exact fun he => h he.symm)]
  rw [find?_filter_of_imp]
  intro x hx
  have hxk : x.1 = k2 := by simpa [beq_iff_eq] using hx
  simp [bne_iff_ne, hxk, h]

/-- Deleting one key leaves every other key unchanged. -/
theorem storeGet_del_ne (s : RLStore) (k k2 : String) (h : k2 ≠ k) :
    storeGet (storeDel s k) k2 = storeGet s k2 := by
  unfold storeGet storeDel
  rw [find?_filter_of_imp]
  intro x hx
  have hxk : x.1 = k2 := by simpa [beq_iff_eq] using hx
  simp [bne_iff_ne, hxk, h]

/-- A faulty or fault free write never touches other keys. -/
theorem storeGet_setRateLimitEntry_ne (f : StoreFaults) (s : RLStore) (key : String)
    (v : RateLimitEntry) (k : String) (hk : k ≠ "rate_limit_" ++ encodeKey key) :
    storeGet (setRateLimitEntry f s key v) k = storeGet s k := by
  unfold setRateLimitEntry
  by_cases hw : f.writeFails = true
  · rw [if_pos hw]
  · rw [if_neg hw]
    exact storeGet_set_ne s _ v k hk

/-! ## Branch lemmas for checkRateLimit -/

/-- Whitelisted identifiers short circuit: allowed, 999 remaining, store
untouched. -/
theorem checkRateLimit_whitelisted (f : StoreFaults) (id : String) (ty : OpClass)
    (s : RLStore) (now : Int)
    (hwl : RATE_LIMIT_WHITELIST.contains (normalizeId id) = true) :
    checkRateLimit f id ty s now = (⟨true, 999, none⟩, s) := by
  unfold checkRateLimit
  rw [if_pos hwl]

/-- A missing (or unreadable) entry yields a fresh window. -/
theorem checkRateLimit_fresh (f : StoreFaults) (id : String) (ty : OpClass)
    (s : RLStore) (now : Int)
    (hwl : RATE_LIMIT_WHITELIST.contains (normalizeId id) = false)
    (hget : getRateLimitEntry f s (opClassName ty ++ "_" ++ id) = none) :
    checkRateLimit f id ty s now =
      (⟨true, (RATE_LIMIT_CONFIG ty).maxAttempts - 1, none⟩,
        setRateLimitEntry f s (opClassName ty ++ "_" ++ id) ⟨1, now, none⟩) := by
  unfold checkRateLimit
  rw [if_neg (by rw [hwl]; exact Bool.false_ne_true)]
  simp only [hget]

/-- A live lockout is reported, store untouched. -/
theorem checkRateLimit_locked (f : StoreFaults) (id : String) (ty : OpClass)
    (s : RLStore) (now : Int) (e : RateLimitEntry) (lu : Int)
    (hwl : RATE_LIMIT_WHITELIST.contains (normalizeId id) = false)
    (hget : getRateLimitEntry f s (opClassName ty ++ "_" ++ id) = some e)
    (hlu : e.lockedUntil = some lu) (hlu0 : lu ≠ 0) (hnow : now < lu) :
    checkRateLimit f id ty s now = (⟨false, 0, some lu⟩, s) := by
  unfold checkRateLimit
  rw [if_neg (by rw [hwl]; exact Bool.false_ne_true)]
  simp only [hget]
  rw [if_pos ⟨by simp [numTruthy, hlu, hlu0], by simpa [hlu] using hnow⟩, hlu]

/-- An elapsed lockout resets to a fresh window. -/
theorem checkRateLimit_lockExpired (f : StoreFaults) (id : String) (ty : OpClass)
    (s : RLStore) (now : Int) (e : RateLimitEntry) (lu : Int)
    (hwl : RATE_LIMIT_WHITELIST.contains (normalizeId id) = false)
    (hget : getRateLimitEntry f s (opClassName ty ++ "_" ++ id) = some e)
    (hlu : e.lockedUntil = some lu) (hlu0 : lu ≠ 0) (hnow : lu ≤ now) :
    checkRateLimit f id ty s now =
      (⟨true, (RATE_LIMIT_CONFIG ty).maxAttempts - 1, none⟩,
        setRateLimitEntry f s (opClassName ty ++ "_" ++ id) ⟨1, now, none⟩) := by
  unfold checkRateLimit
  rw [if_neg (by rw [hwl]; exact Bool.false_ne_true)]
  simp only [hget]
  rw [if_neg (by simp [numTruthy, hlu]; omega)]
  rw [if_pos ⟨by simp [numTruthy, hlu, hlu0], by simpa [hlu] using hnow⟩]

/-- An attempt inside the window below the threshold increments. -/
theorem checkRateLimit_increment (f : StoreFaults) (id : String) (ty : OpClass)
    (s : RLStore) (now : Int) (e : RateLimitEntry)
    (hwl : RATE_LIMIT_WHITELIST.contains (normalizeId id) = false)
    (hget : getRateLimitEntry f s (opClassName ty ++ "_" ++ id) = some e)
    (hlu : e.lockedUntil = none)
    (hwin : now - e.firstAttempt ≤ (RATE_LIMIT_CONFIG ty).windowMs)
    (hlt : e.attempts + 1 < (RATE_LIMIT_CONFIG ty).maxAttempts) :
    checkRateLimit f id ty s now =
      (⟨true, (RATE_LIMIT_CONFIG ty).maxAttempts - (e.attempts + 1), none⟩,
        setRateLimitEntry f s (opClassName ty ++ "_" ++ id)
          ⟨e.attempts + 1, e.firstAttempt, none⟩) := by
  unfold checkRateLimit
  rw [if_neg (by rw [hwl]; exact Bool.false_ne_true)]
  simp only [hget]
  rw [if_neg (by simp [numTruthy, hlu])]
  rw [if_neg (by simp [numTruthy, hlu])]
  rw [if_neg (by omega)]
  rw [if_neg (by omega), ← hlu]

/-- An attempt inside the window that reaches the threshold locks out. -/
theorem checkRateLimit_trigger (f : StoreFaults) (id : String) (ty : OpClass)
    (s : RLStore) (now : Int) (e : RateLimitEntry)
    (hwl : RATE_LIMIT_WHITELIST.contains (normalizeId id) = false)
    (hget : getRateLimitEntry f s (opClassName ty ++ "_" ++ id) = some e)
    (hlu : e.lockedUntil = none)
    (hwin : now - e.firstAttempt ≤ (RATE_LIMIT_CONFIG ty).windowMs)
    (hge : (RATE_LIMIT_CONFIG ty).maxAttempts ≤ e.attempts + 1) :
    checkRateLimit f id ty s now =
      (⟨false, 0, some (now + (RATE_LIMIT_CONFIG ty).lockoutDurationMs)⟩,
        setRateLimitEntry f s (opClassName ty ++ "_" ++ id)
          ⟨e.attempts + 1, e.firstAttempt,
            some (now + (RATE_LIMIT_CONFIG ty).lockoutDurationMs)⟩) := by
  unfold checkRateLimit
  rw [if_neg (by rw [hwl]; exact Bool.false_ne_true)]
  simp only [hget]
  rw [if_neg (by simp [numTruthy, hlu])]
  rw [if_neg (by simp [numTruthy, hlu])]
  rw [if_neg (by omega)]
  rw [if_pos (by omega)]

/-- The result of a check depends on the store only through the key of the
checked identifier. -/
theorem checkRateLimit_result_congr (f : StoreFaults) (id : String) (ty : OpClass)
    (s s2 : RLStore) (now : Int)
    (h : storeGet s (fullKey ty id) = storeGet s2 (fullKey ty id)) :
    (checkRateLimit f id ty s now).1 = (checkRateLimit f id ty s2 now).1 := by
  unfold checkRateLimit
  by_cases hwl : RATE_LIMIT_WHITELIST.contains (normalizeId id) = true
  · rw [if_pos hwl, if_pos hwl]
  · rw [if_neg hwl, if_neg hwl]
    have hg : getRateLimitEntry f s (opClassName ty ++ "_" ++ id) =
        getRateLimitEntry f s2 (opClassName ty ++ "_" ++ id) := by
      unfold getRateLimitEntry
      by_cases hr : f.readFails = true
      · rw [if_pos hr, if_pos hr]
      · rw [if_neg hr, if_neg hr]
        exact h
    simp only [hg]
    cases hge : getRateLimitEntry f s2 (opClassName ty ++ "_" ++ id) with
    | none => rfl
    | some e =>
      dsimp only
      split_ifs <;> rfl

/-- A check touches no key other than its own. -/
theorem storeGet_check_other (f : StoreFaults) (id : String) (ty : OpClass)
    (s : RLStore) (now : Int) (k : String) (hk : k ≠ fullKey ty id) :
    storeGet (checkRateLimit f id ty s now).2 k = storeGet s k := by
  unfold checkRateLimit
  by_cases hwl : RATE_LIMIT_WHITELIST.contains (normalizeId id) = true
  · rw [if_pos hwl]
  · rw [if_neg hwl]
    dsimp only
    generalize getRateLimitEntry f s (opClassName ty ++ "_" ++ id) = ge
    cases ge with
    | none => exact storeGet_setRateLimitEntry_ne f s _ _ k hk
    | some e =>
      dsimp only
      split_ifs <;>
        first
          | rfl
          | exact storeGet_setRateLimitEntry_ne f s _ _ k hk

/-! ## C4, C7, C8, C10 -/

/-- C4 (amended): with the AUTH configuration, a fresh non allow listed
identifier is allowed on calls one to four with remainingAttempts 4,3,2,1;
the fifth call reaches maxAttempts, triggers the lockout and itself returns
allowed = false with lockedUntil = t5 + 30 minutes; a sixth call during the
lockout returns allowed = false with that same instant; a call after
lockedUntil has passed is allowed again on a fresh window with the stored
attempt count reset to 1. -/
theorem c4_threshold (id : String) (t1 t2 t3 t4 t5 t6 t7 : Int)
    (hwl : RATE_LIMIT_WHITELIST.contains (normalizeId id) = false)
    (h1 : 0 ≤ t1) (h12 : t1 ≤ t2) (h23 : t2 ≤ t3) (h34 : t3 ≤ t4) (h45 : t4 ≤ t5)
    (hwin : t5 - t1 ≤ 900000)
    (h56 : t5 ≤ t6) (h6 : t6 < t5 + 1800000) (h7 : t5 + 1800000 ≤ t7) :
    (checkChain id .AUTH [] [t1, t2, t3, t4, t5, t6, t7]).1 =
      [⟨true, 4, none⟩, ⟨true, 3, none⟩, ⟨true, 2, none⟩, ⟨true, 1, none⟩,
       ⟨false, 0, some (t5 + 1800000)⟩, ⟨false, 0, some (t5 + 1800000)⟩,
       ⟨true, 4, none⟩] ∧
    storeGet (checkChain id .AUTH [] [t1, t2, t3, t4, t5, t6, t7]).2 (fullKey .AUTH id) =
      some ⟨1, t7, none⟩ := by
  have e1 : checkRateLimit noFaults id OpClass.AUTH [] t1 =
      (⟨true, 4, none⟩,
        setRateLimitEntry noFaults [] (opClassName OpClass.AUTH ++ "_" ++ id) ⟨1, t1, none⟩) :=
    checkRateLimit_fresh noFaults id OpClass.AUTH [] t1 hwl rfl
  have e2 : checkRateLimit noFaults id OpClass.AUTH
      (setRateLimitEntry noFaults [] (opClassName OpClass.AUTH ++ "_" ++ id) ⟨1, t1, none⟩) t2 =
      (⟨true, 3, none⟩,
        setRateLimitEntry noFaults
          (setRateLimitEntry noFaults [] (opClassName OpClass.AUTH ++ "_" ++ id) ⟨1, t1, none⟩)
          (opClassName OpClass.AUTH ++ "_" ++ id) ⟨2, t1, none⟩) :=
    checkRateLimit_increment noFaults id OpClass.AUTH _ t2 ⟨1, t1, none⟩ hwl
      (storeGet_set_self _ _ _) rfl (by show t2 - t1 ≤ 900000; omega)
      (by show (1 : Nat) + 1 < 5; norm_num)
  have e3 : checkRateLimit noFaults id OpClass.AUTH
      (setRateLimitEntry noFaults
        (setRateLimitEntry noFaults [] (opClassName OpClass.AUTH ++ "_" ++ id) ⟨1, t1, none⟩)
        (opClassName OpClass.AUTH ++ "_" ++ id) ⟨2, t1, none⟩) t3 =
      (⟨true, 2, none⟩,
        setRateLimitEntry noFaults
          (setRateLimitEntry noFaults
            (setRateLimitEntry noFaults [] (opClassName OpClass.AUTH ++ "_" ++ id) ⟨1, t1, none⟩)
            (opClassName OpClass.AUTH ++ "_" ++ id) ⟨2, t1, none⟩)
          (opClassName OpClass.AUTH ++ "_" ++ id) ⟨3, t1, none⟩) :=
    checkRateLimit_increment noFaults id OpClass.AUTH _ t3 ⟨2, t1, none⟩ hwl
      (storeGet_set_self _ _ _) rfl (by show t3 - t1 ≤ 900000; omega)
      (by show (2 : Nat) + 1 < 5; norm_num)
  have e4 : checkRateLimit noFaults id OpClass.AUTH
      (setRateLimitEntry noFaults
        (setRateLimitEntry noFaults
          (setRateLimitEntry noFaults [] (opClassName OpClass.AUTH ++ "_" ++ id) ⟨1, t1, none⟩)
          (opClassName OpClass.AUTH ++ "_" ++ id) ⟨2, t1, none⟩)
        (opClassName OpClass.AUTH ++ "_" ++ id) ⟨3, t1, none⟩) t4 =
      (⟨true, 1, none⟩,
        setRateLimitEntry noFaults
          (setRateLimitEntry noFaults
            (setRateLimitEntry noFaults
              (setRateLimitEntry noFaults [] (opClassName OpClass.AUTH ++ "_" ++ id) ⟨1, t1, none⟩)
              (opClassName OpClass.AUTH ++ "_" ++ id) ⟨2, t1, none⟩)
            (opClassName OpClass.AUTH ++ "_" ++ id) ⟨3, t1, none⟩)
          (opClassName OpClass.AUTH ++ "_" ++ id) ⟨4, t1, none⟩) :=
    checkRateLimit_increment noFaults id OpClass.AUTH _ t4 ⟨3, t1, none⟩ hwl
      (storeGet_set_self _ _ _) rfl (by show t4 - t1 ≤ 900000; omega)
      (by show (3 : Nat) + 1 < 5; norm_num)
  have e5 : checkRateLimit noFaults id OpClass.AUTH
      (setRateLimitEntry noFaults
        (setRateLimitEntry noFaults
          (setRateLimitEntry noFaults
            (setRateLimitEntry noFaults [] (opClassName OpClass.AUTH ++ "_" ++ id) ⟨1, t1, none⟩)
            (opClassName OpClass.AUTH ++ "_" ++ id) ⟨2, t1, none⟩)
          (opClassName OpClass.AUTH ++ "_" ++ id) ⟨3, t1, none⟩)
        (opClassName OpClass.AUTH ++ "_" ++ id) ⟨4, t1, none⟩) t5 =
      (⟨false, 0, some (t5 + 1800000)⟩,
        setRateLimitEntry noFaults
          (setRateLimitEntry noFaults
            (setRateLimitEntry noFaults
              (setRateLimitEntry noFaults
                (setRateLimitEntry noFaults [] (opClassName OpClass.AUTH ++ "_" ++ id) ⟨1, t1, none⟩)
                (opClassName OpClass.AUTH ++ "_" ++ id) ⟨2, t1, none⟩)
              (opClassName OpClass.AUTH ++ "_" ++ id) ⟨3, t1, none⟩)
            (opClassName OpClass.AUTH ++ "_" ++ id) ⟨4, t1, none⟩)
          (opClassName OpClass.AUTH ++ "_" ++ id) ⟨5, t1, some (t5 + 1800000)⟩) :=
    checkRateLimit_trigger noFaults id OpClass.AUTH _ t5 ⟨4, t1, none⟩ hwl
      (storeGet_set_self _ _ _) rfl (by show t5 - t1 ≤ 900000; omega)
      (by show (5 : Nat) ≤ 4 + 1; norm_num)
  have e6 : checkRateLimit noFaults id OpClass.AUTH
      (setRateLimitEntry noFaults
        (setRateLimitEntry noFaults
          (setRateLimitEntry noFaults
            (setRateLimitEntry noFaults
              (setRateLimitEntry noFaults [] (opClassName OpClass.AUTH ++ "_" ++ id) ⟨1, t1, none⟩)
              (opClassName OpClass.AUTH ++ "_" ++ id) ⟨2, t1, none⟩)
            (opClassName OpClass.AUTH ++ "_" ++ id) ⟨3, t1, none⟩)
          (opClassName OpClass.AUTH ++ "_" ++ id) ⟨4, t1, none⟩)
        (opClassName OpClass.AUTH ++ "_" ++ id) ⟨5, t1, some (t5 + 1800000)⟩) t6 =
      (⟨false, 0, some (t5 + 1800000)⟩,
        setRateLimitEntry noFaults
          (setRateLimitEntry noFaults
            (setRateLimitEntry noFaults
              (setRateLimitEntry noFaults
                (setRateLimitEntry noFaults [] (opClassName OpClass.AUTH ++ "_" ++ id) ⟨1, t1, none⟩)
                (opClassName OpClass.AUTH ++ "_" ++ id) ⟨2, t1, none⟩)
              (opClassName OpClass.AUTH ++ "_" ++ id) ⟨3, t1, none⟩)
            (opClassName OpClass.AUTH ++ "_" ++ id) ⟨4, t1, none⟩)
          (opClassName OpClass.AUTH ++ "_" ++ id) ⟨5, t1, some (t5 + 1800000)⟩) :=
    checkRateLimit_locked noFaults id OpClass.AUTH _ t6 ⟨5, t1, some (t5 + 1800000)⟩
      (t5 + 1800000) hwl (storeGet_set_self _ _ _) rfl (by omega) (by omega)
  have e7 : checkRateLimit noFaults id OpClass.AUTH
      (setRateLimitEntry noFaults
        (setRateLimitEntry noFaults
          (setRateLimitEntry noFaults
            (setRateLimitEntry noFaults
              (setRateLimitEntry noFaults [] (opClassName OpClass.AUTH ++ "_" ++ id) ⟨1, t1, none⟩)
              (opClassName OpClass.AUTH ++ "_" ++ id) ⟨2, t1, none⟩)
            (opClassName OpClass.AUTH ++ "_" ++ id) ⟨3, t1, none⟩)
          (opClassName OpClass.AUTH ++ "_" ++ id) ⟨4, t1, none⟩)
        (opClassName OpClass.AUTH ++ "_" ++ id) ⟨5, t1, some (t5 + 1800000)⟩) t7 =
      (⟨true, 4, none⟩,
        setRateLimitEntry noFaults
          (setRateLimitEntry noFaults
            (setRateLimitEntry noFaults
              (setRateLimitEntry noFaults
                (setRateLimitEntry noFaults
                  (setRateLimitEntry noFaults [] (opClassName OpClass.AUTH ++ "_" ++ id) ⟨1, t1, none⟩)
                  (opClassName OpClass.AUTH ++ "_" ++ id) ⟨2, t1, none⟩)
                (opClassName OpClass.AUTH ++ "_" ++ id) ⟨3, t1, none⟩)
              (opClassName OpClass.AUTH ++ "_" ++ id) ⟨4, t1, none⟩)
            (opClassName OpClass.AUTH ++ "_" ++ id) ⟨5, t1, some (t5 + 1800000)⟩)
          (opClassName OpClass.AUTH ++ "_" ++ id) ⟨1, t7, none⟩) :=
    checkRateLimit_lockExpired noFaults id OpClass.AUTH _ t7 ⟨5, t1, some (t5 + 1800000)⟩
      (t5 + 1800000) hwl (storeGet_set_self _ _ _) rfl (by omega) (by omega)
  constructor
  · simp only [checkChain, e1, e2, e3, e4, e5, e6, e7]
  · simp only [checkChain, e1, e2, e3, e4, e5, e6, e7]
    exact storeGet_set_self _ _ _

/-- C4 witness: the amended threshold sequence on a concrete identifier,
six immediate calls and a seventh after the lockout has elapsed. -/
theorem c4_witness :
    (checkChain "user@example.com" .AUTH [] [0, 0, 0, 0, 0, 0, 1800000]).1 =
      [⟨true, 4, none⟩, ⟨true, 3, none⟩, ⟨true, 2, none⟩, ⟨true, 1, none⟩,
       ⟨false, 0, some 1800000⟩, ⟨false, 0, some 1800000⟩, ⟨true, 4, none⟩] ∧
    storeGet (checkChain "user@example.com" .AUTH [] [0, 0, 0, 0, 0, 0, 1800000]).2
      (fullKey .AUTH "user@example.com") = some ⟨1, 1800000, none⟩ :=
  c4_threshold "user@example.com" 0 0 0 0 0 0 1800000 (by decide) (by decide) (by decide)
    (by decide) (by decide) (by decide) (by decide) (by decide) (by decide) (by decide)

/-- C4 counterexample: five consecutive calls for a fresh identifier do not
all return allowed — the fifth call already returns allowed = false (with
remainingAttempts 0 and the lockout instant), refuting the claimed
descending allowed sequence 4,3,2,1,0. -/
theorem c4_counterexample :
    (checkChain "user@example.com" .AUTH [] [0, 0, 0, 0, 0]).1 =
      [⟨true, 4, none⟩, ⟨true, 3, none⟩, ⟨true, 2, none⟩, ⟨true, 1, none⟩,
       ⟨false, 0, some 1800000⟩] := by
  decide

/-- C7: the rate limiter fails open.  With a failing store read every check
for a non allow listed identifier behaves exactly as if no entry existed:
allowed with maxAttempts - 1 remaining and no lockout, whatever the store
holds and whether or not writes also fail.  A failing store write never
changes the returned result either: with readable entries the result equals
the fault free result.  No variant throws: every fault combination returns
a plain result. -/
theorem c7_fail_open :
    (∀ (wf : Bool) (id : String) (ty : OpClass) (s : RLStore) (now : Int),
        RATE_LIMIT_WHITELIST.contains (normalizeId id) = false →
        (checkRateLimit ⟨true, wf⟩ id ty s now).1 =
          ⟨true, (RATE_LIMIT_CONFIG ty).maxAttempts - 1, none⟩) ∧
    (∀ (wf : Bool) (id : String) (ty : OpClass) (s : RLStore) (now : Int),
        (checkRateLimit ⟨false, wf⟩ id ty s now).1 =
          (checkRateLimit noFaults id ty s now).1) := by
  constructor
  · intro wf id ty s now hwl
    rw [checkRateLimit_fresh ⟨true, wf⟩ id ty s now hwl rfl]
  · intro wf id ty s now
    cases wf with
    | false => rfl
    | true =>
      unfold checkRateLimit
      by_cases hwl : RATE_LIMIT_WHITELIST.contains (normalizeId id) = true
      · rw [if_pos hwl, if_pos hwl]
      · rw [if_neg hwl, if_neg hwl]
        have hg : getRateLimitEntry ⟨false, true⟩ s (opClassName ty ++ "_" ++ id) =
            getRateLimitEntry noFaults s (opClassName ty ++ "_" ++ id) := rfl
        simp only [hg]
        cases hge : getRateLimitEntry noFaults s (opClassName ty ++ "_" ++ id) with
        | none => rfl
        | some e =>
          dsimp only
          split_ifs <;> rfl

/-- C7 witness: a failing read on a fresh identifier is allowed with 4 of 5
AUTH attempts remaining; a failing write leaves the returned result equal to
the fault free one. -/
theorem c7_witness :
    (checkRateLimit ⟨true, false⟩ "user@example.com" .AUTH [] 0).1 = ⟨true, 4, none⟩ ∧
    (checkRateLimit ⟨false, true⟩ "user@example.com" .AUTH [] 0).1 =
      (checkRateLimit noFaults "user@example.com" .AUTH [] 0).1 :=
  ⟨c7_fail_open.1 false "user@example.com" .AUTH [] 0 (by decide),
   c7_fail_open.2 true "user@example.com" .AUTH [] 0⟩

/-- C8: the allow list bypass.  For every identifier whose lowercased,
trimmed form is on the static allow list, every check — any operation
class, any store contents, any fault combination, any instant — returns
allowed with the effectively unlimited remaining count 999, no lockedUntil,
and leaves the store untouched, so such an identifier can never become
locked out. -/
theorem c8_allowlist_bypass (f : StoreFaults) (id : String) (ty : OpClass)
    (s : RLStore) (now : Int)
    (hwl : RATE_LIMIT_WHITELIST.contains (normalizeId id) = true) :
    checkRateLimit f id ty s now = (⟨true, 999, none⟩, s) :=
  checkRateLimit_whitelisted f id ty s now hwl

/-- C8 witness: the allow listed address, spelled with stray case and
surrounding whitespace, on a store that already holds entries. -/
theorem c8_witness :
    checkRateLimit noFaults "  Michaelhalperin2@Gmail.COM " .EMAIL
      [(fullKey .EMAIL "  Michaelhalperin2@Gmail.COM ", ⟨99, 0, some 5000⟩)] 3 =
      (⟨true, 999, none⟩,
        [(fullKey .EMAIL "  Michaelhalperin2@Gmail.COM ", ⟨99, 0, some 5000⟩)]) :=
  c8_allowlist_bypass noFaults "  Michaelhalperin2@Gmail.COM " .EMAIL
    [(fullKey .EMAIL "  Michaelhalperin2@Gmail.COM ", ⟨99, 0, some 5000⟩)] 3 (by decide)

/-- C10 (amended): the storage key is built from the verbatim identifier
(operation class prefix, special characters escaped), and two identifiers
with different storage keys keep fully independent counters and lockouts:
a check for one neither changes the other result nor its stored entry, and
a reset deletes only its own entry.  Identifiers differing in ASCII letter
case (User versus user) or in the presence of whitespace (trailing space
versus none) have different keys; but every whitespace character escapes to
the same underscore, so two spellings whose difference lies in which
whitespace character surrounds them (space versus tab) share one key and
one counter. -/
theorem c10_key_isolation :
    (∀ (f : StoreFaults) (id1 id2 : String) (ty : OpClass) (s : RLStore) (now now2 : Int),
        fullKey ty id1 ≠ fullKey ty id2 →
        (checkRateLimit f id2 ty (checkRateLimit f id1 ty s now).2 now2).1 =
          (checkRateLimit f id2 ty s now2).1) ∧
    (∀ (f : StoreFaults) (id1 id2 : String) (ty : OpClass) (s : RLStore),
        fullKey ty id1 ≠ fullKey ty id2 →
        storeGet (resetRateLimit f id1 ty s) (fullKey ty id2) = storeGet s (fullKey ty id2)) ∧
    fullKey .AUTH "User" ≠ fullKey .AUTH "user" ∧
    fullKey .AUTH "user " ≠ fullKey .AUTH "user" := by
  refine ⟨?_, ?_, by decide, by decide⟩
  · intro f id1 id2 ty s now now2 hk
    exact checkRateLimit_result_congr f id2 ty _ s now2
      (storeGet_check_other f id1 ty s now (fullKey ty id2) (Ne.symm hk))
  · intro f id1 id2 ty s hk
    unfold resetRateLimit clearRateLimitEntry
    by_cases hw : f.writeFails = true
    · rw [if_pos hw]
    · rw [if_neg hw]
      exact storeGet_del_ne s _ _ (Ne.symm hk)

/-- C10 witness: attempts recorded for one identifier leave the result for
a differently keyed identifier unchanged, and a reset of one leaves the
entry of the other in place. -/
theorem c10_witness :
    (checkRateLimit noFaults "user" .AUTH
        (checkRateLimit noFaults "User" .AUTH [] 0).2 0).1 =
      (checkRateLimit noFaults "user" .AUTH [] 0).1 ∧
    storeGet (resetRateLimit noFaults "User" .AUTH
        [(fullKey .AUTH "user", ⟨2, 0, none⟩)]) (fullKey .AUTH "user") =
      storeGet [(fullKey .AUTH "user", ⟨2, 0, none⟩)] (fullKey .AUTH "user") :=
  ⟨c10_key_isolation.1 noFaults "User" "user" .AUTH [] 0 0 (by decide),
   c10_key_isolation.2.1 noFaults "User" "user" .AUTH
     [(fullKey .AUTH "user", ⟨2, 0, none⟩)] (by decide)⟩

/-- C10 counterexample: a leading space and a leading tab differ only in
surrounding whitespace, yet both escape to the same storage key, so the
attempt recorded under one spelling counts against the other: the very
first check for the tab spelling already reports only 3 of 5 remaining
attempts after a check for the space spelling, not the fresh 4. -/
theorem c10_counterexample :
    (checkRateLimit noFaults "\tu" .AUTH
        (checkRateLimit noFaults " u" .AUTH [] 0).2 0).1.remainingAttempts = 3 ∧
    (checkRateLimit noFaults "\tu" .AUTH [] 0).1.remainingAttempts = 4 := by
  exact ⟨by decide, by decide⟩

/-! ## Auth layer lemmas -/

/-- The verification update never changes the email column. -/
theorem clearEmailToken_email (norm : String) (x : AuthUser) :
    (clearEmailToken norm x).email = x.email := by
  unfold clearEmailToken
  split <;> rfl

/-- The password reset update never changes the email column. -/
theorem applyPasswordReset_email (norm newHash : String) (x : AuthUser) :
    (applyPasswordReset norm newHash x).email = x.email := by
  unfold applyPasswordReset
  split <;> rfl

/-- Selecting by email commutes with an email preserving row update. -/
theorem getUserByEmail_map (g : AuthUser → AuthUser) (hg : ∀ x, (g x).email = x.email)
    (db : AuthDb) (email : String) :
    getUserByEmail (db.map g) email = (getUserByEmail db email).map g := by
  unfold getUserByEmail
  have hp : ((fun u => u.email == normalizeId email) ∘ g) =
      (fun u => u.email == normalizeId email) := by
    funext x
    simp [Function.comp, hg]
  rw [List.find?_map, hp]

/-! ## C5, C6 -/

/-- C5 (amended): a stored token expiry that is a non zero instant earlier
than the current time makes `verifyEmail` and `verifyPasswordResetPin`
return false even when the submitted digits match, and leaves the account
state unchanged.  (JavaScript truthiness skips the expiry comparison when
the stored expiry is exactly 0, which the counterexample exhibits.) -/
theorem c5_expired_tokens :
    (∀ (db : AuthDb) (email token : String) (now : Int) (u : AuthUser) (e : Int),
        getUserByEmail db email = some u →
        u.emailVerificationTokenExpiry = some e → e ≠ 0 → e < now →
        verifyEmail db email token now = (false, db)) ∧
    (∀ (db : AuthDb) (email pin : String) (now : Int) (u : AuthUser) (e : Int),
        getUserByEmail db email = some u →
        u.passwordResetTokenExpiry = some e → e ≠ 0 → e < now →
        verifyPasswordResetPin db email pin now = false) := by
  constructor
  · intro db email token now u e hu he he0 hen
    unfold verifyEmail
    simp only [hu]
    split_ifs with h1 h2 h3
    · rfl
    · rfl
    · rfl
    · exact absurd ⟨by rw [he]; exact bne_iff_ne.mpr he0, by rw [he]; exact hen⟩ h3
  · intro db email pin now u e hu he he0 hen
    unfold verifyPasswordResetPin
    simp only [hu]
    split_ifs with h1 h2
    · rfl
    · rfl
    · exact absurd ⟨by rw [he]; exact bne_iff_ne.mpr he0, by rw [he]; exact hen⟩ h2

/-- C5 counterexample: an account whose stored expiry instant 0 lies in the
past still verifies with matching digits — the truthiness guard skips the
expiry comparison — so the claim as stated (every expiry instant earlier
than now fails) is false. -/
theorem c5_counterexample :
    (verifyEmail [AuthUser.mk "a@b.c" "n" "h" 0 false (some "111111") (some 0) none none]
        "a@b.c" "111111" 99).1 = true := by
  decide

/-- C5 witness: a non zero past expiry fails both verifications with
matching digits and leaves the table unchanged. -/
theorem c5_witness :
    verifyEmail [AuthUser.mk "a@b.c" "n" "h" 0 false (some "111111") (some 50) none none]
        "a@b.c" "111111" 99 =
      (false, [AuthUser.mk "a@b.c" "n" "h" 0 false (some "111111") (some 50) none none]) ∧
    verifyPasswordResetPin
        [AuthUser.mk "a@b.c" "n" "h" 0 false none none (some "222222") (some 50)]
        "a@b.c" "222222" 99 = false :=
  ⟨c5_expired_tokens.1 _ "a@b.c" "111111" 99
      (AuthUser.mk "a@b.c" "n" "h" 0 false (some "111111") (some 50) none none) 50
      (by decide) rfl (by decide) (by decide),
   c5_expired_tokens.2 _ "a@b.c" "222222" 99
      (AuthUser.mk "a@b.c" "n" "h" 0 false none none (some "222222") (some 50)) 50
      (by decide) rfl (by decide) (by decide)⟩

/-- C6: token single use and verification idempotence.  A successful
`verifyEmail` leaves the matched account verified with token and expiry
cleared, so any second `verifyEmail` on that account returns false; a
successful `resetPasswordWithToken` clears the reset token and expiry, so
re-submitting any pin afterwards fails both `verifyPasswordResetPin` and
`resetPasswordWithToken`. -/
theorem c6_single_use :
    (∀ (db : AuthDb) (email token : String) (now : Int) (token2 : String) (now2 : Int),
        (verifyEmail db email token now).1 = true →
        (∃ u2, getUserByEmail (verifyEmail db email token now).2 email = some u2 ∧
            u2.emailVerified = true ∧ u2.emailVerificationToken = none ∧
            u2.emailVerificationTokenExpiry = none) ∧
        (verifyEmail (verifyEmail db email token now).2 email token2 now2).1 = false) ∧
    (∀ (db : AuthDb) (email pin pw : String) (now : Int) (pin2 pw2 : String) (now2 : Int),
        (resetPasswordWithToken db email pin pw now).1 = true →
        verifyPasswordResetPin (resetPasswordWithToken db email pin pw now).2 email pin2 now2
            = false ∧
        (resetPasswordWithToken (resetPasswordWithToken db email pin pw now).2
            email pin2 pw2 now2).1 = false) := by
  constructor
  · intro db email token now token2 now2 h
    cases hu : getUserByEmail db email with
    | none =>
      unfold verifyEmail at h
      simp only [hu] at h
      exact absurd h (by simp)
    | some u =>
      unfold verifyEmail at h
      simp only [hu] at h
      by_cases h1 : strOptTruthy u.emailVerificationToken = false ∨ u.emailVerified = true
      · rw [if_pos h1] at h
        exact absurd h (by simp)
      · rw [if_neg h1] at h
        by_cases h2 : u.emailVerificationToken ≠ some token
        · rw [if_pos h2] at h
          exact absurd h (by simp)
        · rw [if_neg h2] at h
          by_cases h3 : numTruthy u.emailVerificationTokenExpiry = true ∧
              u.emailVerificationTokenExpiry.getD 0 < now
          · rw [if_pos h3] at h
            exact absurd h (by simp)
          · have hdb2 : (verifyEmail db email token now).2 =
                db.map (clearEmailToken (normalizeId email)) := by
              unfold verifyEmail
              simp only [hu]
              rw [if_neg h1, if_neg h2, if_neg h3]
            have hue : (u.email == normalizeId email) = true := by
              have hu2 : db.find? (fun x => x.email == normalizeId email) = some u := hu
              have h4 := List.find?_some hu2
              exact h4
            have hget2 : getUserByEmail (db.map (clearEmailToken (normalizeId email))) email =
                some (clearEmailToken (normalizeId email) u) := by
              rw [getUserByEmail_map (clearEmailToken (normalizeId email))
                    (clearEmailToken_email (normalizeId email)), hu]
              rfl
            have hcu : clearEmailToken (normalizeId email) u =
                { u with emailVerified := true, emailVerificationToken := none,
                         emailVerificationTokenExpiry := none } := by
              unfold clearEmailToken
              rw [if_pos hue]
            constructor
            · refine ⟨clearEmailToken (normalizeId email) u, ?_, ?_, ?_, ?_⟩
              · rw [hdb2]
                exact hget2
              · rw [hcu]
              · rw [hcu]
              · rw [hcu]
            · rw [hdb2]
              unfold verifyEmail
              simp only [hget2]
              rw [if_pos (Or.inl (by rw [hcu]; rfl))]
  · intro db email pin pw now pin2 pw2 now2 h
    cases hu : getUserByEmail db email with
    | none =>
      unfold resetPasswordWithToken at h
      simp only [hu] at h
      exact absurd h (by simp)
    | some u =>
      unfold resetPasswordWithToken at h
      simp only [hu] at h
      by_cases h1 : strOptTruthy u.passwordResetToken = false ∨
          u.passwordResetToken ≠ some (jsTrim pin)
      · rw [if_pos h1] at h
        exact absurd h (by simp)
      · rw [if_neg h1] at h
        by_cases h2 : numTruthy u.passwordResetTokenExpiry = true ∧
            u.passwordResetTokenExpiry.getD 0 < now
        · rw [if_pos h2] at h
          exact absurd h (by simp)
        · have hdb2 : (resetPasswordWithToken db email pin pw now).2 =
              db.map (applyPasswordReset (normalizeId email) (hashPassword pw)) := by
            unfold resetPasswordWithToken
            simp only [hu]
            rw [if_neg h1, if_neg h2]
          have hue : (u.email == normalizeId email) = true := by
            have hu2 : db.find? (fun x => x.email == normalizeId email) = some u := hu
            have h4 := List.find?_some hu2
            exact h4
          have hget2 : getUserByEmail
              (db.map (applyPasswordReset (normalizeId email) (hashPassword pw))) email =
              some (applyPasswordReset (normalizeId email) (hashPassword pw) u) := by
            rw [getUserByEmail_map (applyPasswordReset (normalizeId email) (hashPassword pw))
                  (applyPasswordReset_email (normalizeId email) (hashPassword pw)), hu]
            rfl
          have hcu : applyPasswordReset (normalizeId email) (hashPassword pw) u =
              { u with passwordHash := hashPassword pw, passwordResetToken := none,
                       passwordResetTokenExpiry := none } := by
            unfold applyPasswordReset
            rw [if_pos hue]
          constructor
          · rw [hdb2]
            unfold verifyPasswordResetPin
            simp only [hget2]
            rw [if_pos (Or.inl (by rw [hcu]; rfl))]
          · rw [hdb2]
            unfold resetPasswordWithToken
            simp only [hget2]
            rw [if_pos (Or.inl (by rw [hcu]; rfl))]

/-- C6 witness: a concrete account verifies once and not twice, and resets
its password once but rejects the same pin afterwards. -/
theorem c6_witness :
    ((∃ u2, getUserByEmail
          (verifyEmail [AuthUser.mk "a@b.c" "n" "h" 0 false (some "123456") (some 100) none none]
            "a@b.c" "123456" 5).2 "a@b.c" = some u2 ∧
        u2.emailVerified = true ∧ u2.emailVerificationToken = none ∧
        u2.emailVerificationTokenExpiry = none) ∧
      (verifyEmail
        (verifyEmail [AuthUser.mk "a@b.c" "n" "h" 0 false (some "123456") (some 100) none none]
          "a@b.c" "123456" 5).2 "a@b.c" "123456" 6).1 = false) ∧
    (verifyPasswordResetPin
        (resetPasswordWithToken
          [AuthUser.mk "a@b.c" "n" "h" 0 false none none (some "654321") (some 100)]
          "a@b.c" "654321" "npw" 5).2 "a@b.c" "654321" 6 = false ∧
      (resetPasswordWithToken
        (resetPasswordWithToken
          [AuthUser.mk "a@b.c" "n" "h" 0 false none none (some "654321") (some 100)]
          "a@b.c" "654321" "npw" 5).2 "a@b.c" "654321" "npw" 6).1 = false) :=
  ⟨c6_single_use.1 [AuthUser.mk "a@b.c" "n" "h" 0 false (some "123456") (some 100) none none]
      "a@b.c" "123456" 5 "123456" 6 (by decide),
   c6_single_use.2 [AuthUser.mk "a@b.c" "n" "h" 0 false none none (some "654321") (some 100)]
      "a@b.c" "654321" "npw" 5 "654321" "npw" 6 (by decide)⟩
